import Mathlib

/-!
Verification development for the `telint` library (phone-number parsing,
validation, caching and formatting).  The Python sources
`telint/_number_formatter.py` and `telint/_phone_number.py` are shallowly
embedded below: strings are modelled as `List Char`, Python's `re` usages
are modelled by the character-level functions they compute, machine time
is an explicit `Int` parameter, and the network is an explicit
`Option`-valued outcome parameter.  Python's `\d` is modelled as the ASCII
digits `0-9` and `\s` / `str.strip()` as ASCII whitespace, which covers
every input considered here.
-/

namespace Telint

/-- Python `str.isspace`-style whitespace test for the ASCII range, used by
`str.strip()` and the regex class `\s`. -/
def pyIsSpace (c : Char) : Bool :=
  c == ' ' || c == '\t' || c == '\n' || c == '\r' || c == '\x0b' || c == '\x0c'

/-- Python `str.strip()` with no arguments: drop leading and trailing
whitespace. -/
def pyStrip (s : List Char) : List Char :=
  ((s.dropWhile pyIsSpace).reverse.dropWhile pyIsSpace).reverse

/-- Python `str.upper()` on the ASCII range. -/
def pyUpper (s : List Char) : List Char :=
  s.map Char.toUpper

/-- Python `str.lstrip(chars)`: remove every leading character that is a
member of `chars` (a character-class strip, not a literal prefix match). -/
def pyLstripChars (chars : List Char) (s : List Char) : List Char :=
  s.dropWhile (fun c => chars.contains c)

/-- Python `str.replace(old, new)` for a one-character `old`. -/
def pyReplaceChar (old : Char) (new : List Char) (s : List Char) : List Char :=
  s.flatMap (fun c => if c = old then new else [c])

/-- Python `sep.join(parts)`. -/
def pyJoin (sep : List Char) : List (List Char) → List Char
  | [] => []
  | [x] => x
  | x :: xs => x ++ sep ++ pyJoin sep xs

/-! ## `_number_formatter.py` : class `NumFormatter` -/

/-- Formatting styles, from the `PhoneFormat` enum of
`_number_formatter.py`.  (`localNum` is the source's `LOCAL`.) -/
inductive PhoneFormat where
  | e164
  | international
  | national
  | dashed
  | dot
  | parentheses
  | spaces
  | rfc3966
  | localNum
deriving DecidableEq

/-- One entry of `NumFormatter.COUNTRY_RULES`; `nationalPfx` and
`trunkPfx` are the source's `national_prefix` and `trunk_prefix`
fields. -/
structure CountryRule where
  code : List Char
  pattern : List Nat
  nationalPfx : List Char
  trunkPfx : List Char
deriving DecidableEq

/-- The built-in table `NumFormatter.COUNTRY_RULES` (insertion order
preserved, as in a Python dict). -/
def countryRules : List (List Char × CountryRule) :=
  [ (['U', 'S'], ⟨['1'], [3, 3, 4], ['1'], ['1']⟩)
  , (['U', 'K'], ⟨['4', '4'], [4, 3, 4], ['0'], ['0']⟩)
  , (['F', 'R'], ⟨['3', '3'], [3, 3, 3, 3], ['0'], ['0']⟩) ]

/-- Python `COUNTRY_RULES.get(country_code)`. -/
def lookupRule (cc : List Char) : Option CountryRule :=
  (countryRules.find? (fun p => p.1 == cc)).map (fun p => p.2)

/-- The table `NumFormatter.INTL_PREFIXES`, in declaration order:
`'00' -> '+'`, `'011' -> '+'`, `'810' -> '+'`. -/
def intlPfxTable : List (List Char × List Char) :=
  [ (['0', '0'], ['+'])
  , (['0', '1', '1'], ['+'])
  , (['8', '1', '0'], ['+']) ]

/-- The `re.sub(r'(?!^\+)[^\d]', '', original)` step of
`NumFormatter._extract_digits`: keep the character at index 0 when it is a
`+` or a digit, keep later characters only when they are digits. -/
def keepDigitsAndLeadPlus : List Char → List Char
  | [] => []
  | c :: rest => (if c = '+' || c.isDigit then [c] else []) ++ rest.filter Char.isDigit

/-- The prefix-replacement loop of `NumFormatter._extract_digits`: the
first table entry whose key is a literal prefix of the cleaned string is
replaced, then the loop breaks. -/
def replaceIntlPfx : List (List Char × List Char) → List Char → List Char
  | [], s => s
  | (p, r) :: rest, s =>
      if List.isPrefixOf p s then r ++ s.drop p.length else replaceIntlPfx rest s

/-- `NumFormatter._extract_digits` applied to the stored `original`. -/
def extractDigits (original : List Char) : List Char :=
  replaceIntlPfx intlPfxTable (keepDigitsAndLeadPlus original)

/-- Alternation branches of the extension regex
`(?:ext|ex|x|#)\s*(\d+)$`, in the order the regex engine tries them. -/
def extKeywords : List (List Char) :=
  [ ['e', 'x', 't'], ['e', 'x'], ['x'], ['#'] ]

/-- Attempt to match `(?:ext|ex|x|#)\s*(\d+)$` (case-insensitively) against
the whole suffix `s`, returning the digit group: some keyword must lead,
then optional whitespace, then one or more digits reaching the end. -/
def matchExtAt (s : List Char) : Option (List Char) :=
  extKeywords.findSome? fun kw =>
    if (s.take kw.length).map Char.toLower = kw then
      let r := (s.drop kw.length).dropWhile pyIsSpace
      if r ≠ [] ∧ r.all Char.isDigit then some r else none
    else none

/-- Leftmost-match search of the extension regex, as `re.search` performs
it: try each start position from the left. -/
def findExt : List Char → Option (List Char)
  | [] => none
  | c :: rest =>
      match matchExtAt (c :: rest) with
      | some d => some d
      | none => findExt rest

/-- `NumFormatter._extract_extension`: the digit group of the match, or the
empty string when there is no match. -/
def extractExtension (original : List Char) : List Char :=
  (findExt original).getD []

/-- State of a constructed `NumFormatter`: the stripped original input, the
upper-cased optional country code, and the derived digit string and
extension. -/
structure NumFormatter where
  original : List Char
  country : Option (List Char)
  digits : List Char
  extension : List Char
deriving DecidableEq

/-- `NumFormatter.__init__(number, country_code)`: strip the raw number,
upper-case the country code (a falsy empty string becomes `None`), and
derive digits and extension. -/
def NumFormatter.make (number : List Char) (countryCode : Option (List Char)) : NumFormatter :=
  let original := pyStrip number
  { original := original
    country :=
      match countryCode with
      | none => none
      | some c => if c = [] then none else some (pyUpper c)
    digits := extractDigits original
    extension := extractExtension original }

/-- The `f" ext{self._extension}" if self._extension else ''` suffix used
by `_format_e164`. -/
def extSuffix (ext : List Char) : List Char :=
  if ext = [] then [] else [' ', 'e', 'x', 't'] ++ ext

/-- `NumFormatter._format_e164(digits)` (reads `self._extension` and
`self.country_code`, which are passed explicitly). -/
def formatE164 (nf : NumFormatter) (digits : List Char) : List Char :=
  if List.isPrefixOf ['+'] digits then
    digits ++ extSuffix nf.extension
  else
    match nf.country with
    | none => digits
    | some cc =>
      match lookupRule cc with
      | none => digits
      | some rule =>
          '+' :: (rule.code ++ pyLstripChars rule.nationalPfx digits ++ extSuffix nf.extension)

/-- The chunking loop of `NumFormatter._group_digits`: walk the pattern,
stopping when the digits are exhausted, and append any leftover digits as
one final group. -/
def groupChunks : List Nat → List Char → List (List Char)
  | [], ds => if ds = [] then [] else [ds]
  | g :: gs, ds => if ds = [] then [] else ds.take g :: groupChunks gs (ds.drop g)

/-- `NumFormatter._group_digits(digits, pattern)`; a falsy pattern
(`None`, modelled as `[]`, or an empty list) selects the default
`[3, 3, 4]`. -/
def groupDigits (ds : List Char) (pattern : List Nat) : List Char :=
  pyJoin ['-'] (groupChunks (if pattern = [] then [3, 3, 4] else pattern) ds)

/-- `NumFormatter._format_international(digits)`. -/
def formatInternational (nf : NumFormatter) (digits : List Char) : List Char :=
  let e := formatE164 nf digits
  if ¬ List.isPrefixOf ['+'] e then e
  else
    let cc := if e.length > 3 then (e.drop 1).take 2 else e.drop 1
    let nationalNum := e.drop (cc.length + 1)
    '+' :: (cc ++ [' '] ++ groupDigits nationalNum [])

/-- `NumFormatter._format_national(digits)`. -/
def formatNational (nf : NumFormatter) (digits : List Char) : List Char :=
  match nf.country with
  | none => digits
  | some cc =>
    match lookupRule cc with
    | none => digits
    | some rule =>
        groupDigits (pyLstripChars rule.nationalPfx (pyLstripChars rule.code digits)) rule.pattern

/-- `NumFormatter._format_delimited(digits, delimiter)`. -/
def formatDelimited (nf : NumFormatter) (digits : List Char) (delim : List Char) : List Char :=
  let e := formatE164 nf digits
  if ¬ List.isPrefixOf ['+'] e then e
  else
    let cc := if e.length > 3 then (e.drop 1).take 2 else e.drop 1
    let nationalNum := e.drop (cc.length + 1)
    let grouped := groupDigits nationalNum []
    '+' :: (cc ++ delim ++ (match delim with
      | [d] => pyReplaceChar '-' [d] grouped
      | _ => grouped))

/-- `NumFormatter._format_parentheses(digits)`. -/
def formatParentheses (nf : NumFormatter) (digits : List Char) : List Char :=
  match nf.country with
  | none => formatInternational nf digits
  | some cc =>
    match lookupRule cc with
    | none => formatInternational nf digits
    | some rule =>
        let nationalNum := pyLstripChars rule.nationalPfx (pyLstripChars rule.code digits)
        let areaLen := match rule.pattern with | [] => 3 | a :: _ => a
        if nationalNum.length ≤ rule.pattern.sum then
          let area := nationalNum.take areaLen
          let localPart := nationalNum.drop areaLen
          let groupedLocal := groupDigits localPart rule.pattern.tail
          '+' :: (rule.code ++ [' ', '('] ++ area ++ [')', ' '] ++ groupedLocal)
        else formatInternational nf digits

/-- `NumFormatter._format_spaces(digits)`. -/
def formatSpaces (nf : NumFormatter) (digits : List Char) : List Char :=
  pyReplaceChar '-' [' '] (formatDelimited nf digits [' '])

/-- `NumFormatter._format_local(digits)`. -/
def formatLocal (nf : NumFormatter) (digits : List Char) : List Char :=
  match nf.country with
  | none => digits
  | some cc =>
    match lookupRule cc with
    | none => digits
    | some rule =>
        groupDigits (pyLstripChars rule.nationalPfx (pyLstripChars rule.code digits)) rule.pattern

/-- `NumFormatter.format(style)`: dispatch over the nine styles, each on
`self._digits`. -/
def NumFormatter.format (nf : NumFormatter) (style : PhoneFormat) : List Char :=
  match style with
  | .e164 => formatE164 nf nf.digits
  | .international => formatInternational nf nf.digits
  | .national => formatNational nf nf.digits
  | .dashed => formatDelimited nf nf.digits ['-']
  | .dot => formatDelimited nf nf.digits ['.']
  | .parentheses => formatParentheses nf nf.digits
  | .spaces => formatSpaces nf nf.digits
  | .rfc3966 => ['t', 'e', 'l', ':'] ++ formatDelimited nf nf.digits ['-']
  | .localNum => formatLocal nf nf.digits

/-! ## `_phone_number.py` : class `PhoneNumber` -/

/-- `PhoneNumber._normalize_number(number)`, i.e.
`re.sub(r'[^\d+]', '', number)`: delete every character that is neither a
digit nor a `+` (every `+` is kept, wherever it occurs). -/
def normalizeNumber (number : List Char) : List Char :=
  number.filter (fun c => c.isDigit || c == '+')

/-- One value of the `countries` metadata dictionary built by
`_MetadataHandler._load_metadata`. -/
structure CountryInfo where
  name : List Char
  callingCode : List Char
deriving DecidableEq

/-- The inner loop of `PhoneNumber._detect_region`: the first table entry
whose calling code, with every `+` removed, equals the candidate
prefix. -/
def findCodeMatch (countries : List (List Char × CountryInfo)) (candidate : List Char) :
    Option (List Char) :=
  (countries.find? (fun p => p.2.callingCode.filter (fun c => c != '+') == candidate)).map
    (fun p => p.1)

/-- The `for i in range(1, 5)` loop of `PhoneNumber._detect_region`:
candidate lengths are tried in the given order; a length is only tried
when `len(number) > i`, and a hit returns immediately. -/
def detectLoop (countries : List (List Char × CountryInfo)) (number : List Char) :
    List Nat → Option (List Char)
  | [] => none
  | i :: rest =>
      if number.length > i then
        match findCodeMatch countries ((number.drop 1).take i) with
        | some code => some code
        | none => detectLoop countries number rest
      else detectLoop countries number rest

/-- `PhoneNumber._detect_region`, parameterized by the `countries` table of
the metadata cache. -/
def detectRegion (countries : List (List Char × CountryInfo)) (number : List Char) :
    Option (List Char) :=
  if List.isPrefixOf ['+'] number then detectLoop countries number [1, 2, 3, 4]
  else none

/-- `PhoneNumber.is_valid` on the stored normalized number: an empty
number is invalid, otherwise the count of digit characters must lie in
`[7, 15]`. -/
def isValid (number : List Char) : Bool :=
  if number = [] then false
  else
    let digitsOnly := number.filter Char.isDigit
    decide (7 ≤ digitsOnly.length) && decide (digitsOnly.length ≤ 15)

/-! ## `_phone_number.py` : class `_CacheManager`

A cache directory is modelled as an association list from keys to file
contents; a file either deserializes to a `CacheEntry` (payload and
timestamp) or is corrupt (gzip/pickle failure on read). Timestamps and
the current time are explicit `Int` parameters. -/

/-- Contents of one on-disk cache file. -/
inductive CacheFile (α : Type) where
  | valid (data : α) (timestamp : Int)
  | corrupt
deriving DecidableEq

/-- The cache directory: an association from keys to file contents. -/
def CacheState (α : Type) : Type := List (String × CacheFile α)

/-- Look up the file stored for a key (hashing of keys to file names is
injective, hence elided). -/
def lookupFile (st : CacheState α) (key : String) : Option (CacheFile α) :=
  (List.find? (fun p => p.1 == key) st).map (fun p => p.2)

/-- `cache_path.unlink()`: remove the file for a key. -/
def eraseKey (st : CacheState α) (key : String) : CacheState α :=
  List.filter (fun p => !(p.1 == key)) st

/-- `_CacheManager.get(key)`: a missing file yields `None`; a valid file
yields its payload; a corrupt file is deleted and yields `None`.  The
possibly changed directory is returned alongside the result. -/
def cacheGet (st : CacheState α) (key : String) : Option α × CacheState α :=
  match lookupFile st key with
  | none => (none, st)
  | some (.valid d _) => (some d, st)
  | some .corrupt => (none, eraseKey st key)

/-- `_CacheManager.set(key, value)` at time `now`: write a fresh
`CacheEntry(value, now)` over whatever the key held. -/
def cacheSet (st : CacheState α) (key : String) (v : α) (now : Int) : CacheState α :=
  (key, CacheFile.valid v now) :: eraseKey st key

/-- `_Const.CACHE_TTL` (24 hours, in seconds). -/
def cacheTTL : Int := 86400

/-- `_CacheManager.is_expired(key)` at time `now`: a missing file is
expired, a corrupt file raises and is reported expired, a valid file is
expired when its age exceeds the TTL. -/
def isExpired (st : CacheState α) (key : String) (now : Int) : Bool :=
  match lookupFile st key with
  | none => true
  | some .corrupt => true
  | some (.valid _ t) => decide (now - t > cacheTTL)

/-! ## `_phone_number.py` : class `_MetadataHandler` -/

/-- The `CachePolicy` enum. -/
inductive CachePolicy where
  | cacheFirst
  | networkFirst
deriving DecidableEq

/-- Outcome of `urllib.request.urlopen` followed by `json.loads`: `some`
parsed payload, or `none` for any network error, timeout or malformed
response (all raise and are caught by the same `except`). -/
def NetOutcome (α : Type) : Type := Option α

/-- The tail of `_MetadataHandler._download_json` shared by both policies:
on a successful fetch, store and return the parsed payload; on failure,
fall back to `cache_manager.get(cache_key)` whatever its age. -/
def fetchFallback (st : CacheState α) (key : String) (net : NetOutcome α) (now : Int) :
    Option α × CacheState α :=
  match net with
  | some payload => (some payload, cacheSet st key payload now)
  | none => cacheGet st key

/-- `_MetadataHandler._download_json(url, cache_key)` at time `now` with
network outcome `net`: under `CACHE_FIRST` a present, unexpired cache
entry is returned without touching the network (the read may delete a
corrupt file); otherwise the network is consulted with the cache
fallback. -/
def downloadJson (policy : CachePolicy) (st : CacheState α) (key : String)
    (net : NetOutcome α) (now : Int) : Option α × CacheState α :=
  match policy with
  | .cacheFirst =>
    let g := cacheGet st key
    match g.1 with
    | some d => if isExpired g.2 key now = false then (some d, g.2) else fetchFallback g.2 key net now
    | none => fetchFallback g.2 key net now
  | .networkFirst => fetchFallback st key net now

/-- The payload a cache directory currently holds for a key: the data of a
valid file, and nothing for a missing or corrupt file. -/
def storedValue (st : CacheState α) (key : String) : Option α :=
  match lookupFile st key with
  | some (.valid d _) => some d
  | _ => none

/-! ## `PhoneNumber.__init__` singleton race

`PhoneNumber.__init__` runs `if PhoneNumber._metadata_handler is None:
PhoneNumber._metadata_handler = _MetadataHandler()` with no lock.  Two
threads running that statement are modelled at the granularity the
interpreter guarantees: reading and testing the class attribute is one
atomic step, constructing `_MetadataHandler()` (which performs blocking
network fetches) and assigning it is another.  `inits` counts how many
times `_MetadataHandler()` was constructed. -/

/-- Global state of the two-thread first-construction scenario: whether
the class attribute is set, how many constructions ran, and each thread's
program counter together with the `is None` result it observed. -/
structure RaceState where
  handlerSet : Bool
  inits : Nat
  pc0 : Nat
  saw0 : Bool
  pc1 : Nat
  saw1 : Bool
deriving DecidableEq

/-- Initial state: attribute unset, no constructions, both threads at
their check. -/
def raceInit : RaceState :=
  { handlerSet := false, inits := 0, pc0 := 0, saw0 := false, pc1 := 0, saw1 := false }

/-- One scheduler step: run the next atomic action of thread `tid`
(`false` or `true`).  Action 0 evaluates `_metadata_handler is None`;
action 1 constructs and assigns when the check saw `None`. -/
def raceStep (g : RaceState) (tid : Bool) : RaceState :=
  if tid = false then
    match g.pc0 with
    | 0 => { g with saw0 := !g.handlerSet, pc0 := 1 }
    | 1 =>
        if g.saw0 then { g with inits := g.inits + 1, handlerSet := true, pc0 := 2 }
        else { g with pc0 := 2 }
    | _ => g
  else
    match g.pc1 with
    | 0 => { g with saw1 := !g.handlerSet, pc1 := 1 }
    | 1 =>
        if g.saw1 then { g with inits := g.inits + 1, handlerSet := true, pc1 := 2 }
        else { g with pc1 := 2 }
    | _ => g

/-- Run a schedule (a list of thread ids) from the initial state. -/
def raceRun (sched : List Bool) : RaceState :=
  sched.foldl raceStep raceInit

/-! ## Specification-side definitions

These definitions transcribe the specification's wording (not the code)
for the two refinement-style claims about `_format_e164` and
`_detect_region`; the theorems below compare them with the embedded
code. -/

/-- Transcription of the spec's three-branch E.164 postcondition: a
`+`-leading digit string is returned unchanged (plus the extension
suffix); with no region or no rule for the region the digit string is
returned unchanged; otherwise `+`, the rule's calling code, and the digit
string with every leading character belonging to the rule's
national-prefix string removed, plus the extension suffix. -/
def e164Spec (digits ext : List Char) (country : Option (List Char)) : List Char :=
  if digits.head? = some '+' then
    digits ++ (if ext = [] then [] else ' ' :: 'e' :: 'x' :: 't' :: ext)
  else
    match country with
    | none => digits
    | some cc =>
      match lookupRule cc with
      | none => digits
      | some rule =>
          ['+'] ++ rule.code ++ digits.dropWhile (fun c => decide (c ∈ rule.nationalPfx)) ++
            (if ext = [] then [] else ' ' :: 'e' :: 'x' :: 't' :: ext)

/-- Transcription of the spec's inner-loop wording for region inference:
the first table entry whose stored calling code, with any `+` stripped,
exactly equals the candidate prefix. -/
def specFirstMatch (countries : List (List Char × CountryInfo)) (candidate : List Char) :
    Option (List Char) :=
  (countries.find?
      (fun p => decide (p.2.callingCode.filter (fun c => decide (c ≠ '+')) = candidate))).map
    (fun p => p.1)

/-- Transcription of the spec's wording for region inference: only for
`+`-leading numbers, try candidate prefixes of lengths 1 through 4 in
increasing order (a length is available only when enough characters
follow the `+`), returning the first match. -/
def specResolve (countries : List (List Char × CountryInfo)) (number : List Char) :
    Option (List Char) :=
  if number.head? = some '+' then
    [1, 2, 3, 4].findSome? (fun i =>
      if number.length > i then specFirstMatch countries ((number.take (i + 1)).drop 1)
      else none)
  else none

/-- The claim's tie-break table, region `A` before region `B`. -/
def tableAB : List (List Char × CountryInfo) :=
  [ (['A'], ⟨['A', 'l', 'a', 'n', 'd'], ['1']⟩)
  , (['B'], ⟨['B', 'l', 'a', 'n', 'd'], ['1', '4']⟩) ]

/-- The claim's tie-break table, region `B` before region `A`. -/
def tableBA : List (List Char × CountryInfo) :=
  [ (['B'], ⟨['B', 'l', 'a', 'n', 'd'], ['1', '4']⟩)
  , (['A'], ⟨['A', 'l', 'a', 'n', 'd'], ['1']⟩) ]

/-! ## Helper lemmas -/

/-- A singleton `['+']` is a (Boolean) prefix of a character list exactly
when the head of the list is `'+'`. -/
theorem isPrefixOf_plus_iff (s : List Char) :
    (List.isPrefixOf ['+'] s = true) ↔ s.head? = some '+' := by
  cases s with
  | nil => simp [List.isPrefixOf]
  | cons c t =>
    simp [List.isPrefixOf]
    exact eq_comm

/-- Boolean membership agrees with the decided membership proposition on
character lists. -/
theorem contains_eq_decide_mem (l : List Char) (c : Char) :
    l.contains c = decide (c ∈ l) := by
  simp [List.contains, List.elem_iff]

/-- Python's character-class `lstrip` is `dropWhile` of membership. -/
theorem pyLstripChars_eq_dropWhile_mem (chars s : List Char) :
    pyLstripChars chars s = s.dropWhile (fun c => decide (c ∈ chars)) := by
  unfold pyLstripChars
  congr 1
  funext c
  exact contains_eq_decide_mem chars c

/-- Boolean disequality agrees with the decided disequality on
characters. -/
theorem bne_plus_eq_decide (c : Char) :
    (c != '+') = decide (c ≠ '+') := by
  by_cases h : c = '+'
  · subst h; decide
  · simp [h]

/-- Boolean equality agrees with the decided equality on character
lists. -/
theorem beq_list_eq_decide (a b : List Char) :
    (a == b) = decide (a = b) := by
  by_cases h : a = b
  · subst h; simp
  · simp [h]

/-- Deleting a key's file really makes later lookups miss. -/
theorem lookupFile_eraseKey (st : CacheState α) (key : String) :
    lookupFile (eraseKey st key) key = none := by
  have : List.find? (fun p => p.1 == key) (eraseKey st key) = none := by
    rw [List.find?_eq_none]
    intro x hx
    have hmem := List.mem_filter.mp hx
    simpa using hmem.2
  simp [lookupFile, this]

/-- The payload component of a `get` is exactly the currently stored
payload. -/
theorem cacheGet_fst (st : CacheState α) (key : String) :
    (cacheGet st key).1 = storedValue st key := by
  unfold cacheGet storedValue
  cases h : lookupFile st key with
  | none => simp
  | some f => cases f <;> simp

/-! ## Claim theorems -/

/-- Claim C2, counterexample: `_normalize_number` keeps every `+`, not
just a leading one.  On the raw input `"1+2"` the output is `"1+2"`
itself, so the output contains a `+` that is not the leading character,
refuting the claimed invariant that any `+` present is leading. -/
theorem c2_counterexample :
    normalizeNumber ['1', '+', '2'] = ['1', '+', '2'] ∧
      (((normalizeNumber ['1', '+', '2']).drop 1).all (fun c => c != '+')) = false := by
  decide

/-- Claim C2 as amended: for every raw input the normalized number
contains only digits and `+` characters (a `+` may occur anywhere and
multiple times), and normalization only deletes characters from the raw
input (the output is a sublist of the input). -/
theorem c2_normalize_charset_and_sublist (raw : List Char) :
    ((normalizeNumber raw).all (fun c => c.isDigit || c == '+')) = true ∧
      (normalizeNumber raw).Sublist raw := by
  constructor
  · apply List.all_eq_true.mpr
    intro c hc
    exact (List.mem_filter.mp hc).2
  · exact List.filter_sublist raw

/-- Claim C5: `PhoneNumber.is_valid` holds exactly when the number of
digit characters of the stored normalized number lies in `[7, 15]`; the
source's separate empty-string early-exit agrees with the digit-count
criterion. -/
theorem c5_is_valid_iff_digit_count (raw : List Char) :
    isValid (normalizeNumber raw) = true ↔
      7 ≤ ((normalizeNumber raw).filter Char.isDigit).length ∧
        ((normalizeNumber raw).filter Char.isDigit).length ≤ 15 := by
  unfold isValid
  by_cases h : normalizeNumber raw = []
  · simp [h]
  · simp [h]

/-- Claim C8: the formatter on `("011 33 1 42 68 53 00", "FR")` replaces
the leading international dialing prefix `011` by `+` during digit
extraction (the table entry `00` is checked first but does not match),
and the `DASHED` style renders `"+33-142-685-300"`, which begins with
`"+33-"`. -/
theorem c8_dashed_fr :
    (NumFormatter.make ("011 33 1 42 68 53 00".toList) (some ("FR".toList))).digits
        = "+33142685300".toList ∧
      NumFormatter.format
          (NumFormatter.make ("011 33 1 42 68 53 00".toList) (some ("FR".toList)))
          PhoneFormat.dashed = "+33-142-685-300".toList ∧
      List.isPrefixOf ("+33-".toList) ("+33-142-685-300".toList) = true := by
  decide

/-- Claim C10: the unguarded `is None` check-then-assign in
`PhoneNumber.__init__` admits a two-thread schedule (both threads pass
the check before either assigns) under which `_MetadataHandler()` is
constructed twice — each construction triggering its pair of network
fetches — while a serialized schedule constructs it once. -/
theorem c10_unguarded_singleton_race :
    (raceRun [false, true, false, true]).inits = 2 ∧
      (raceRun [false, false, true, true]).inits = 1 := by
  decide

/-- Claim C6: when the file stored for a key is corrupt
(gzip/pickle failure on read), `get` returns `None` and unlinks the file;
afterwards the key has no file, and a subsequent `get` still returns
`None`. -/
theorem c6_corrupt_get_self_heals (α : Type) (st : CacheState α) (key : String)
    (h : lookupFile st key = some CacheFile.corrupt) :
    (cacheGet st key).1 = none ∧
      lookupFile (cacheGet st key).2 key = none ∧
      (cacheGet (cacheGet st key).2 key).1 = none := by
  refine ⟨?_, ?_, ?_⟩
  · simp [cacheGet, h]
  · simp [cacheGet, h, lookupFile_eraseKey]
  · simp [cacheGet, h, lookupFile_eraseKey]

/-- Claim C6 witness: a one-entry directory whose file is corrupt. -/
theorem c6_witness :
    (cacheGet ([("k", CacheFile.corrupt)] : CacheState Nat) "k").1 = none ∧
      lookupFile (cacheGet ([("k", CacheFile.corrupt)] : CacheState Nat) "k").2 "k" = none ∧
      (cacheGet (cacheGet ([("k", CacheFile.corrupt)] : CacheState Nat) "k").2 "k").1 = none :=
  c6_corrupt_get_self_heals Nat [("k", CacheFile.corrupt)] "k" (by decide)

/-- Claim C7: immediately after `set(key, v)` at time `now`, `get(key)`
returns `v` and `is_expired(key)` is false; at any time more than the
24-hour TTL after `now`, `is_expired(key)` is true. -/
theorem c7_cache_roundtrip (α : Type) (st : CacheState α) (key : String) (v : α) (now : Int) :
    (cacheGet (cacheSet st key v now) key).1 = some v ∧
      isExpired (cacheSet st key v now) key now = false ∧
      ∀ later : Int, later - now > cacheTTL →
        isExpired (cacheSet st key v now) key later = true := by
  have hfind : lookupFile (cacheSet st key v now) key = some (CacheFile.valid v now) := by
    simp [lookupFile, cacheSet, List.find?]
  refine ⟨?_, ?_, ?_⟩
  · simp [cacheGet, hfind]
  · simp [isExpired, hfind]
    decide
  · intro later hl
    simp [isExpired, hfind]
    exact hl

/-- Claim C7 witness: payload `5` stored at time `0` in an empty
directory; reading back yields `5`, freshness holds at time `0`, and
expiry holds at time `90000 > 86400`. -/
theorem c7_witness :
    (cacheGet (cacheSet ([] : CacheState Nat) "k" 5 0) "k").1 = some 5 ∧
      isExpired (cacheSet ([] : CacheState Nat) "k" 5 0) "k" 0 = false ∧
      isExpired (cacheSet ([] : CacheState Nat) "k" 5 0) "k" 90000 = true := by
  have h := c7_cache_roundtrip Nat ([] : CacheState Nat) "k" 5 0
  exact ⟨h.1, h.2.1, h.2.2 90000 (by decide)⟩

/-- Claim C3: whatever the policy, the cache directory and the time, when
the network fetch (or the parsing of its response) fails,
`_download_json` returns exactly the payload the cache currently stores
for the key — even an expired one — and `none` when the key stores no
payload; the failure itself is absorbed, never raised. -/
theorem c3_fetch_failure_falls_back (α : Type) (policy : CachePolicy) (st : CacheState α)
    (key : String) (now : Int) :
    (downloadJson policy st key none now).1 = storedValue st key := by
  cases policy with
  | networkFirst =>
    simpa [downloadJson, fetchFallback] using cacheGet_fst st key
  | cacheFirst =>
    unfold downloadJson
    cases h : lookupFile st key with
    | none =>
      simp [cacheGet, h, fetchFallback, storedValue, cacheGet_fst]
    | some f =>
      cases f with
      | valid d t =>
        by_cases hexp : isExpired st key now = false
        · simp [cacheGet, h, hexp, storedValue]
        · simp [cacheGet, h, hexp, fetchFallback, storedValue, cacheGet_fst, cacheGet]
      | corrupt =>
        simp [cacheGet, h, fetchFallback, storedValue, lookupFile_eraseKey]

/-- Concatenating the chunks produced by the grouping loop restores the
input, for every pattern. -/
theorem groupChunks_flatten (p : List Nat) (ds : List Char) :
    (groupChunks p ds).flatten = ds := by
  induction p generalizing ds with
  | nil =>
    by_cases h : ds = [] <;> simp [groupChunks, h]
  | cons g gs ih =>
    by_cases h : ds = []
    · simp [groupChunks, h]
    · simp [groupChunks, h, ih, List.take_append_drop]

/-- Joining chunks with `-` and then deleting every `-` restores the
chunk concatenation, provided no chunk character is a `-`. -/
theorem pyJoin_filter_ne (chunks : List (List Char))
    (h : ∀ c ∈ chunks.flatten, c ≠ '-') :
    (pyJoin ['-'] chunks).filter (fun c => c != '-') = chunks.flatten := by
  induction chunks with
  | nil => rfl
  | cons x xs ih =>
    have hx : List.filter (fun c => c != '-') x = x := by
      apply List.filter_eq_self.mpr
      intro a ha
      have : a ≠ '-' := h a (by simp [ha])
      simpa using this
    cases xs with
    | nil => simpa [pyJoin] using hx
    | cons y ys =>
      have hrest : ∀ c ∈ (y :: ys).flatten, c ≠ '-' := by
        intro c hc
        refine h c ?_
        rw [List.flatten_cons]
        exact List.mem_append_right x hc
      simp [pyJoin, List.filter_append, hx, ih hrest]

/-- Claim C9: for every input string and every pattern of group lengths
(with the default `[3, 3, 4]` selected for an absent or empty pattern),
the chunks produced by `_group_digits` concatenate back to exactly the
input — grouping never drops, duplicates or reorders characters, and
leftover characters form one final group inside `groupChunks` — and, as
long as the input itself contains no `-`, deleting the `-` delimiters
from the joined output restores the input. -/
theorem c9_grouping_preserves_digits (ds : List Char) (pattern : List Nat) :
    (groupChunks (if pattern = [] then [3, 3, 4] else pattern) ds).flatten = ds ∧
      ('-' ∉ ds →
        (groupDigits ds pattern).filter (fun c => c != '-') = ds) := by
  refine ⟨groupChunks_flatten _ ds, ?_⟩
  intro hds
  unfold groupDigits
  have hflat := groupChunks_flatten (if pattern = [] then [3, 3, 4] else pattern) ds
  rw [pyJoin_filter_ne _ (by rw [hflat]; intro c hc hcontra; exact hds (hcontra ▸ hc)), hflat]

/-- Claim C9 witness: the default pattern on a ten-digit string. -/
theorem c9_witness :
    (groupDigits ("1234567890".toList) []).filter (fun c => c != '-')
        = "1234567890".toList :=
  (c9_grouping_preserves_digits ("1234567890".toList) []).2 (by decide)

/-- The code's inner region-matching loop agrees with the spec's wording
of it. -/
theorem findCodeMatch_eq_spec (countries : List (List Char × CountryInfo))
    (candidate : List Char) :
    findCodeMatch countries candidate = specFirstMatch countries candidate := by
  unfold findCodeMatch specFirstMatch
  congr 1
  congr 1
  funext p
  rw [show (fun c => c != '+') = (fun c => decide (c ≠ '+')) from funext bne_plus_eq_decide]
  exact beq_list_eq_decide _ _

/-- The code's candidate-length loop is the first hit of the candidate
list. -/
theorem detectLoop_eq_findSome (countries : List (List Char × CountryInfo))
    (number : List Char) (lens : List Nat) :
    detectLoop countries number lens =
      lens.findSome? (fun i =>
        if number.length > i then findCodeMatch countries ((number.drop 1).take i)
        else none) := by
  induction lens with
  | nil => rfl
  | cons i rest ih =>
    simp only [detectLoop, List.findSome?_cons]
    by_cases h : number.length > i
    · simp only [if_pos h]
      cases hm : findCodeMatch countries ((number.drop 1).take i) with
      | some code => rfl
      | none => exact ih
    · simp only [if_neg h]
      exact ih

/-- Claim C4: `_detect_region` is exactly the spec's resolver — candidate
prefixes of length 1 through 4 tried in increasing order, first region
whose `+`-stripped calling code equals the candidate — and on the claim's
tie-break table (`A ↦ "1"`, `B ↦ "14"`, in either listing order) the
number `+14255551234` resolves to region `A`, not `B`. -/
theorem c4_region_resolution_order :
    (∀ (countries : List (List Char × CountryInfo)) (number : List Char),
        detectRegion countries number = specResolve countries number) ∧
      detectRegion tableAB ("+14255551234".toList) = some ['A'] ∧
      detectRegion tableBA ("+14255551234".toList) = some ['A'] := by
  refine ⟨?_, by decide, by decide⟩
  intro countries number
  unfold detectRegion specResolve
  by_cases h : number.head? = some '+'
  · rw [if_pos ((isPrefixOf_plus_iff number).mpr h), if_pos h, detectLoop_eq_findSome]
    have hfun :
        (fun i => if number.length > i then findCodeMatch countries ((number.drop 1).take i)
          else none) =
        (fun i => if number.length > i then specFirstMatch countries ((number.take (i + 1)).drop 1)
          else none) := by
      funext i
      by_cases hi : number.length > i
      · rw [if_pos hi, if_pos hi, findCodeMatch_eq_spec]
        congr 1
        rw [List.drop_take (i + 1) 1 number]
        simp
      · rw [if_neg hi, if_neg hi]
    rw [hfun]
  · rw [if_neg (fun hc => h ((isPrefixOf_plus_iff number).mp hc)), if_neg h]

/-- The embedded `_format_e164` satisfies the spec's three-branch
postcondition for every digit string, extension and stored country
code. -/
theorem formatE164_eq_spec (nf : NumFormatter) (digits : List Char) :
    formatE164 nf digits = e164Spec digits nf.extension nf.country := by
  unfold formatE164 e164Spec extSuffix
  by_cases h : digits.head? = some '+'
  · rw [if_pos ((isPrefixOf_plus_iff digits).mpr h), if_pos h]
    simp
  · rw [if_neg (fun hc => h ((isPrefixOf_plus_iff digits).mp hc)), if_neg h]
    split
    · rfl
    · split
      · rfl
      · rw [pyLstripChars_eq_dropWhile_mem]
        simp

/-- Claim C1: for every raw number and optional region, the constructed
formatter's `format(E164)` output satisfies the spec's three-branch
postcondition, stated over the formatter's extracted digit string,
extracted extension and stored country code: a `+`-leading digit string
is returned as-is plus the extension suffix; with no usable rule the
digit string is returned unchanged (without the suffix); otherwise `+`,
the rule's calling code, and the digit string stripped of leading
national-prefix characters (character-class strip), plus the suffix. -/
theorem c1_format_e164_postcondition (number : List Char) (region : Option (List Char)) :
    NumFormatter.format (NumFormatter.make number region) PhoneFormat.e164 =
      e164Spec (NumFormatter.make number region).digits
        (NumFormatter.make number region).extension
        (NumFormatter.make number region).country :=
  formatE164_eq_spec (NumFormatter.make number region) (NumFormatter.make number region).digits

end Telint
